import Mathlib

/-!
# Verification of the canvas-drawing board (src/src/DrawingBoard/DrawingBoard.tsx)

Shallow embedding of the DrawingBoard component.  JavaScript numbers are
modelled by `ℚ` (every arithmetic operation the component performs —
subtraction, `Math.abs`, `Math.max`, `Math.min`, division, addition,
decrement — is exact on the inputs of interest, so rationals are a faithful
idealisation).  The browser canvas is modelled as a pixel grid of
`Option Color` values (`none` = fully transparent, as a freshly created or
freshly resized canvas element is); `drawImage` composites source-over,
i.e. a transparent source pixel leaves the destination pixel unchanged.
All model functions are total Lean functions: the embedding of a handler
can never raise, mirroring that JavaScript division never faults
(`0/0` is `NaN`, which is consumed by a `while` guard that is already
false, see `strokeLoop`).
-/

/-- RGB color, one field per channel, as in the `Color` interface. -/
structure Color where
  r : ℕ
  g : ℕ
  b : ℕ
  deriving DecidableEq, Repr

/-- Opaque white, the clear color `rgb(255 255 255)`. -/
def white : Color := ⟨255, 255, 255⟩

/-- A pixel of the canvas: `none` is transparent (the state a fresh or
freshly-resized canvas element is in), `some c` is the opaque color `c`. -/
def Pixel := Option Color

instance : DecidableEq Pixel := inferInstanceAs (DecidableEq (Option Color))

/-- A pointer position in canvas-local coordinates, as in the `Point`
interface. -/
structure Point where
  x : ℚ
  y : ℚ
  deriving DecidableEq, Repr

/-- One `ctx.fillRect(x, y, size, size)` call emitted by the stroke
renderer: `x`, `y` are the top-left corner of the filled square (the code
passes `startX - penSize / 2`, `startY - penSize / 2`), `size` the side. -/
structure Stamp where
  x : ℚ
  y : ℚ
  size : ℚ
  color : Color
  deriving DecidableEq, Repr

/-- Center abscissa of a stamp (corner plus half the side). -/
def Stamp.centerX (s : Stamp) : ℚ := s.x + s.size / 2

/-- Center ordinate of a stamp. -/
def Stamp.centerY (s : Stamp) : ℚ := s.y + s.size / 2

/-- The `while (stepCount > 0)` loop of `handlePointerMove`: emit a stamp
at the running position, advance by `(stepX, stepY)`, decrement the
counter.  The counter is a rational, exactly as in the source where it is
a JS number; the loop runs `⌈stepCount⌉` times. -/
def strokeLoop (startX startY stepX stepY penSize : ℚ) (penColor : Color)
    (stepCount : ℚ) : List Stamp :=
  if h : 0 < stepCount then
    ⟨startX - penSize / 2, startY - penSize / 2, penSize, penColor⟩ ::
      strokeLoop (startX + stepX) (startY + stepY) stepX stepY penSize penColor
        (stepCount - 1)
  else
    []
termination_by (⌈stepCount⌉).toNat
decreasing_by
  have h1 : 0 < ⌈stepCount⌉ := Int.ceil_pos.2 h
  have h2 : ⌈stepCount - 1⌉ = ⌈stepCount⌉ - 1 := by
    have h3 := Int.ceil_sub_int stepCount 1
    simp only [Int.cast_one] at h3
    exact h3
  omega

/-- The interpolation block of `handlePointerMove` guarded by
`if (prevXY)`: compute `stepCount = max(|endY - startY|, |endX - startX|)`,
the per-step deltas by division, and run the stamp loop. -/
def drawSegment (prev : Point) (canvasX canvasY : ℚ) (penColor : Color)
    (penSize : ℚ) : List Stamp :=
  let startX := prev.x
  let startY := prev.y
  let endX := canvasX
  let endY := canvasY
  let stepCount := max |endY - startY| |endX - startX|
  let stepX := (endX - startX) / stepCount
  let stepY := (endY - startY) / stepCount
  strokeLoop startX startY stepX stepY penSize penColor stepCount

/-- The component state read and written by the pointer handlers. -/
structure StrokeState where
  isDrawing : Bool
  prevXY : Option Point
  deriving DecidableEq, Repr

/-- `handlePointerMove`: returns the updated state and the list of stamps
painted.  `hasCtx` and `hasCanvas` model the `!ctx` / `!canvas` guards;
`canvasX`, `canvasY` are `clientX - rootX`, `clientY - rootY`. -/
def handlePointerMove (st : StrokeState) (hasCtx hasCanvas : Bool)
    (canvasX canvasY : ℚ) (penColor : Color) (penSize : ℚ) :
    StrokeState × List Stamp :=
  if !st.isDrawing || !hasCtx || !hasCanvas then
    (st, [])
  else
    match st.prevXY with
    | some prev =>
        (⟨st.isDrawing, some ⟨canvasX, canvasY⟩⟩,
          drawSegment prev canvasX canvasY penColor penSize)
    | none => (⟨st.isDrawing, some ⟨canvasX, canvasY⟩⟩, [])

/-- `handlePointerDown`: start a stroke. -/
def handlePointerDown (st : StrokeState) : StrokeState :=
  ⟨true, st.prevXY⟩

/-- `handlePointerUp` (also bound to `onPointerOut`): end the stroke and
reset the previous point. -/
def handlePointerUp (_st : StrokeState) : StrokeState :=
  ⟨false, none⟩

/-- The canvas pixel buffer: its `width`/`height` attributes and its pixel
content.  `pix x y` is only meaningful for `x < width`, `y < height`. -/
structure Canvas where
  width : ℕ
  height : ℕ
  pix : ℕ → ℕ → Pixel

/-- A `toDataURL` capture: full pixel content plus the dimensions it was
taken at.  The PNG encoding itself is a trusted, lossless external
primitive (spec section 1), so the snapshot is modelled by the data it
encodes. -/
structure Snapshot where
  width : ℕ
  height : ℕ
  pix : ℕ → ℕ → Pixel

/-- `canvas.toDataURL()`. -/
def snapshotCanvas (c : Canvas) : Snapshot :=
  ⟨c.width, c.height, c.pix⟩

/-- A freshly created canvas buffer, or one whose `width`/`height`
attribute was just set: every pixel transparent. -/
def blankCanvas (w h : ℕ) : Canvas :=
  ⟨w, h, fun _ _ => none⟩

/-- `clearBoard`: `fillRect(0, 0, width, height)` with opaque white. -/
def clearBoard (c : Canvas) : Canvas :=
  ⟨c.width, c.height, fun x y =>
    if x < c.width ∧ y < c.height then some white else c.pix x y⟩

/-- `ctx.drawImage(image, 0, 0)` where `image` decodes `snap`: source-over
compositing of the snapshot at origin, clipped to the canvas; a
transparent source pixel leaves the destination pixel unchanged. -/
def drawImageAt (c : Canvas) (snap : Snapshot) : Canvas :=
  ⟨c.width, c.height, fun x y =>
    if x < c.width ∧ y < c.height ∧ x < snap.width ∧ y < snap.height then
      match snap.pix x y with
      | some col => some col
      | none => c.pix x y
    else c.pix x y⟩

/-- A JavaScript number as produced by `Number(...)`: either NaN or an
exact rational value.  `Number(String(x)) === x` holds for every finite JS
number, so a dimension cell written by ``localStorage.setItem(k, `${width}`)``
is modelled directly by the numeric image of its stored string. -/
inductive JSNum where
  | nan : JSNum
  | num : ℚ → JSNum
  deriving DecidableEq, Repr

/-- `Number(localStorage.getItem(key))`: a missing key gives `null`, and
`Number(null)` is `0`. -/
def jsNumber : Option JSNum → JSNum
  | none => JSNum.num 0
  | some v => v

/-- JS truthiness of a number: `NaN` and `0` are falsy, everything else
(negative values included) is truthy. -/
def JSNum.truthy : JSNum → Bool
  | JSNum.nan => false
  | JSNum.num q => decide (q ≠ 0)

/-- The rational value of a JS number (`0` for NaN; only read on truthy
values, where it is the stored number itself). -/
def JSNum.val : JSNum → ℚ
  | JSNum.nan => 0
  | JSNum.num q => q

/-- The `localStorage` slots the component uses: `canvasData` (a data-URL
snapshot, modelled by the snapshot it encodes), `canvasDimensionW` and
`canvasDimensionH` (decimal numeric strings, modelled by their numeric
image under `Number`). -/
structure Storage where
  canvasData : Option Snapshot
  canvasW : Option JSNum
  canvasH : Option JSNum

/-- A store with no prior data: every `getItem` returns `null`. -/
def emptyStorage : Storage := ⟨none, none, none⟩

/-- `saveBoard`: overwrite all three slots with the current snapshot and
the current dimension state. -/
def saveBoard (c : Canvas) (w h : ℚ) (s : Storage) : Storage :=
  { s with
    canvasData := some (snapshotCanvas c)
    canvasW := some (JSNum.num w)
    canvasH := some (JSNum.num h) }

/-- `loadBoardDimensions`: read both dimension slots through `Number`;
apply them only when `localWidth && localHeight` is truthy, otherwise
keep the current (default) dimensions `w`, `h`. -/
def loadBoardDimensions (s : Storage) (w h : ℚ) : ℚ × ℚ :=
  let localWidth := jsNumber s.canvasW
  let localHeight := jsNumber s.canvasH
  if localWidth.truthy && localHeight.truthy then
    (localWidth.val, localHeight.val)
  else
    (w, h)

/-- `loadBoard`: if no snapshot is stored, clear to white; otherwise draw
the decoded snapshot at origin. -/
def loadBoard (s : Storage) (c : Canvas) : Canvas :=
  match s.canvasData with
  | none => clearBoard c
  | some snap => drawImageAt c snap

/-- The mount effect on surface-bind: `loadBoardDimensions()` (which ends
in a deferred `clearBoard`) followed by a deferred `loadBoard()`.  Returns
the resulting dimension state and the resulting canvas content, with `c`
the bound canvas buffer. -/
def startup (s : Storage) (c : Canvas) : (ℚ × ℚ) × Canvas :=
  (loadBoardDimensions s 400 400, loadBoard s (clearBoard c))

/-- `handleStartResize`: capture `canvas.toDataURL()` as the resizing
snapshot before any dimension change. -/
def handleStartResize (c : Canvas) : Snapshot :=
  snapshotCanvas c

/-- One dimension update while resizing: the canvas element is re-created
blank at the new size, and the `[width, height]` effect redraws the
captured snapshot at origin whenever `resizingCanvasData` is non-empty. -/
def resizeDimensionUpdate (resizingData : Option Snapshot) (w h : ℕ) :
    Canvas :=
  match resizingData with
  | none => blankCanvas w h
  | some snap => drawImageAt (blankCanvas w h) snap

/-- `handleResize`: clamp the pointer position (relative to the canvas
origin) to `[300, 0.9 * bodyWidth] × [150, 0.6 * bodyHeight]` and return
the new dimension state; without a bound canvas the state is unchanged. -/
def handleResize (hasCanvas : Bool) (clientX clientY rootX rootY : ℚ)
    (bodyW bodyH : ℚ) (w h : ℚ) : ℚ × ℚ :=
  if !hasCanvas then
    (w, h)
  else
    let minWidth : ℚ := 300
    let minHeight : ℚ := 150
    let maxWidth := bodyW * (9 / 10)
    let maxHeight := bodyH * (6 / 10)
    (min maxWidth (max minWidth (clientX - rootX)),
      min maxHeight (max minHeight (clientY - rootY)))

/-- The dimension computation of `handleFileUpload.onload`: clamp to
`maxWidth` first, then, if the derived height exceeds `maxHeight`,
re-derive the width from `maxHeight` through the aspect ratio. -/
def uploadDims (imgW imgH maxW maxH : ℚ) : ℚ × ℚ :=
  let aspectRatio := imgW / imgH
  let newWidth := min imgW maxW
  let newHeight := newWidth / aspectRatio
  if newHeight > maxH then
    (maxH * aspectRatio, maxH)
  else
    (newWidth, newHeight)

/-- A pointer event as dispatched to the canvas element. -/
inductive PEvent where
  | down : PEvent
  | up : PEvent
  | out : PEvent
  | move : Bool → Bool → ℚ → ℚ → PEvent
  deriving DecidableEq, Repr

/-- Dispatch one pointer event to its handler (`onPointerDown`,
`onPointerUp`, `onPointerOut`, `onPointerMove`); the pen settings do not
affect the stroke state, so fixed values are passed to the move handler. -/
def pointerStep (st : StrokeState) : PEvent → StrokeState
  | PEvent.down => handlePointerDown st
  | PEvent.up => handlePointerUp st
  | PEvent.out => handlePointerUp st
  | PEvent.move hasCtx hasCanvas x y =>
      (handlePointerMove st hasCtx hasCanvas x y ⟨0, 0, 0⟩ 2).1

/-- The initial stroke state at mount: not drawing, no previous point. -/
def initStrokeState : StrokeState := ⟨false, none⟩

/-- Run a sequence of pointer events from the initial state. -/
def runEvents (evs : List PEvent) : StrokeState :=
  evs.foldl pointerStep initStrokeState

/-- A small fully-opaque canvas used to instantiate theorems on concrete
content. -/
def sampleCanvas : Canvas :=
  ⟨2, 2, fun x y => some ⟨x, y, 0⟩⟩

/-! ## Lemmas about the stroke loop -/

theorem strokeLoop_of_nonpos (sx sy dx dy ps : ℚ) (col : Color) (q : ℚ)
    (h : q ≤ 0) : strokeLoop sx sy dx dy ps col q = [] := by
  rw [strokeLoop]
  simp [not_lt.2 h]

theorem strokeLoop_of_pos (sx sy dx dy ps : ℚ) (col : Color) (q : ℚ)
    (h : 0 < q) :
    strokeLoop sx sy dx dy ps col q =
      ⟨sx - ps / 2, sy - ps / 2, ps, col⟩ ::
        strokeLoop (sx + dx) (sy + dy) dx dy ps col (q - 1) := by
  rw [strokeLoop]
  simp [h]

/-- Closed form of the stamp loop for a natural counter: the `i`-th stamp
is the square of side `ps` whose top-left corner is the running position
`(sx + i·dx, sy + i·dy)` offset by `-ps/2` in each axis. -/
theorem strokeLoop_eq_map (n : ℕ) :
    ∀ (sx sy dx dy ps : ℚ) (col : Color),
      strokeLoop sx sy dx dy ps col (n : ℚ) =
        (List.range n).map fun i =>
          ⟨sx + i * dx - ps / 2, sy + i * dy - ps / 2, ps, col⟩ := by
  induction n with
  | zero =>
      intro sx sy dx dy ps col
      simp [strokeLoop_of_nonpos]
  | succ m ih =>
      intro sx sy dx dy ps col
      have hpos : (0 : ℚ) < ((m + 1 : ℕ) : ℚ) := by positivity
      rw [strokeLoop_of_pos _ _ _ _ _ _ _ hpos]
      have hsub : ((m + 1 : ℕ) : ℚ) - 1 = (m : ℚ) := by push_cast; ring
      rw [hsub, ih]
      rw [List.range_succ_eq_map, List.map_cons, List.map_map]
      refine List.cons_eq_cons.2 ⟨by simp, ?_⟩
      apply List.map_congr_left
      intro i _
      simp only [Function.comp_apply, Stamp.mk.injEq]
      constructor
      · push_cast; ring
      · simp only [and_true, true_and]
        push_cast; ring

/-- Reduction of `handlePointerMove` during an active stroke with a
previous point: it paints the interpolated segment and stores the new
previous point. -/
theorem handlePointerMove_active (st : StrokeState) (p : Point)
    (cx cy ps : ℚ) (col : Color)
    (hst : st.isDrawing = true) (hprev : st.prevXY = some p) :
    handlePointerMove st true true cx cy col ps =
      (⟨true, some ⟨cx, cy⟩⟩, drawSegment p cx cy col ps) := by
  simp [handlePointerMove, hst, hprev]

/-! ## Claim theorems -/

/-- C2: for a stroke segment with a previous point and
`steps = max(|dx|, |dy|) > 0` (an integer `n`), the renderer emits exactly
`n` stamps; the `i`-th stamp starts at `previousPoint` and advances by
`(dx/steps, dy/steps)` per stamp (its corner is the running position
offset by `-penSize/2` in each axis), the last stamp sits exactly one
step-vector before `currentPoint`, and the previous point is updated to
`currentPoint`. -/
theorem C2_interpolation_completeness (st : StrokeState) (p : Point)
    (cx cy ps : ℚ) (col : Color) (n : ℕ)
    (hst : st.isDrawing = true) (hprev : st.prevXY = some p)
    (hn : max |cy - p.y| |cx - p.x| = (n : ℚ)) (hpos : 0 < n) :
    (handlePointerMove st true true cx cy col ps).2.length = n ∧
    (∀ i : ℕ, i < n →
      (handlePointerMove st true true cx cy col ps).2[i]? =
        some ⟨p.x + i * ((cx - p.x) / n) - ps / 2,
              p.y + i * ((cy - p.y) / n) - ps / 2, ps, col⟩) ∧
    (handlePointerMove st true true cx cy col ps).2[n - 1]? =
      some ⟨cx - (cx - p.x) / n - ps / 2,
            cy - (cy - p.y) / n - ps / 2, ps, col⟩ ∧
    (handlePointerMove st true true cx cy col ps).1.prevXY =
      some ⟨cx, cy⟩ := by
  have hne : (n : ℚ) ≠ 0 := Nat.cast_ne_zero.2 (Nat.pos_iff_ne_zero.1 hpos)
  have hseg : drawSegment p cx cy col ps =
      (List.range n).map fun i =>
        ⟨p.x + i * ((cx - p.x) / (n : ℚ)) - ps / 2,
          p.y + i * ((cy - p.y) / (n : ℚ)) - ps / 2, ps, col⟩ := by
    show strokeLoop p.x p.y
        ((cx - p.x) / max |cy - p.y| |cx - p.x|)
        ((cy - p.y) / max |cy - p.y| |cx - p.x|) ps col
        (max |cy - p.y| |cx - p.x|) = _
    rw [hn, strokeLoop_eq_map]
  rw [handlePointerMove_active st p cx cy ps col hst hprev]
  have hget : ∀ i : ℕ, i < n →
      (drawSegment p cx cy col ps)[i]? =
        some ⟨p.x + i * ((cx - p.x) / n) - ps / 2,
              p.y + i * ((cy - p.y) / n) - ps / 2, ps, col⟩ := by
    intro i hi
    rw [hseg, List.getElem?_map, List.getElem?_range hi]
    rfl
  refine ⟨by rw [hseg]; simp, hget, ?_, rfl⟩
  have hlt : n - 1 < n := Nat.sub_lt hpos Nat.one_pos
  rw [hget (n - 1) hlt]
  have hcast : ((n - 1 : ℕ) : ℚ) = (n : ℚ) - 1 := by
    rw [Nat.cast_sub hpos]
    norm_num
  congr 1
  simp only [Stamp.mk.injEq, hcast, and_true, true_and]
  constructor
  · field_simp
    ring
  · field_simp
    ring

/-- C2 witness: a stroke from `(0,0)` to `(3,0)` during an active stroke
emits three stamps and updates the previous point. -/
theorem C2_witness :
    (handlePointerMove ⟨true, some ⟨0, 0⟩⟩ true true 3 0 ⟨0, 0, 0⟩ 2).2.length = 3 ∧
    (handlePointerMove ⟨true, some ⟨0, 0⟩⟩ true true 3 0 ⟨0, 0, 0⟩ 2).1.prevXY =
      some ⟨3, 0⟩ := by
  have h := C2_interpolation_completeness ⟨true, some ⟨0, 0⟩⟩ ⟨0, 0⟩ 3 0 2
    ⟨0, 0, 0⟩ 3 rfl rfl (by norm_num) (by norm_num)
  exact ⟨h.1, h.2.2.2⟩

/-- C1: at the failing input (`prevXY = (3,4)` and a pointer-move to the
same point, so `stepCount = 0`), the code emits zero stamps — not the one
stamp the spec requires — because `while (stepCount > 0)` is false at
entry; no division fault occurs (the NaN step deltas are never consumed),
and the previous point is still updated. -/
theorem C1_steps_zero_emits_no_stamp :
    (handlePointerMove ⟨true, some ⟨3, 4⟩⟩ true true 3 4 ⟨0, 0, 0⟩ 2).2 = [] ∧
    (handlePointerMove ⟨true, some ⟨3, 4⟩⟩ true true 3 4 ⟨0, 0, 0⟩ 2).2.length ≠ 1 ∧
    (handlePointerMove ⟨true, some ⟨3, 4⟩⟩ true true 3 4 ⟨0, 0, 0⟩ 2).1.prevXY =
      some ⟨3, 4⟩ := by
  have hseg : drawSegment ⟨3, 4⟩ 3 4 ⟨0, 0, 0⟩ 2 = [] := by
    unfold drawSegment
    norm_num
    exact strokeLoop_of_nonpos _ _ _ _ _ _ _ le_rfl
  rw [handlePointerMove_active _ ⟨3, 4⟩ 3 4 2 ⟨0, 0, 0⟩ rfl rfl]
  simp [hseg]

/-- C10: a pointer-move while no stroke is in progress, or without a
bound context or canvas, returns the state unchanged (including `prevXY`)
and emits no stamps. -/
theorem C10_move_without_stroke_is_noop (st : StrokeState)
    (hasCtx hasCanvas : Bool) (x y : ℚ) (col : Color) (ps : ℚ)
    (h : st.isDrawing = false ∨ hasCtx = false ∨ hasCanvas = false) :
    handlePointerMove st hasCtx hasCanvas x y col ps = (st, []) := by
  rcases h with h | h | h <;> simp [handlePointerMove, h]

/-- C10 witness: a concrete pointer-move with `isDrawing = false` leaves
the state (including a non-null `prevXY`) untouched and paints nothing. -/
theorem C10_witness :
    handlePointerMove ⟨false, some ⟨1, 1⟩⟩ true true 5 5 ⟨0, 0, 0⟩ 2 =
      (⟨false, some ⟨1, 1⟩⟩, []) :=
  C10_move_without_stroke_is_noop ⟨false, some ⟨1, 1⟩⟩ true true 5 5
    ⟨0, 0, 0⟩ 2 (Or.inl rfl)

/-- C3 counterexample: the stored width `"-100"` is non-positive, yet
`loadBoardDimensions` applies it (a negative JS number is truthy), so the
caller does not keep the default `400 × 400`. -/
theorem C3_counterexample_negative_accepted :
    loadBoardDimensions ⟨none, some (JSNum.num (-100)), some (JSNum.num 200)⟩
        400 400 = (-100, 200) ∧
    (-100 : ℚ) < 0 ∧
    loadBoardDimensions ⟨none, some (JSNum.num (-100)), some (JSNum.num 200)⟩
        400 400 ≠ (400, 400) := by
  refine ⟨?_, by norm_num, ?_⟩
  · simp [loadBoardDimensions, jsNumber, JSNum.truthy, JSNum.val]
  · simp [loadBoardDimensions, jsNumber, JSNum.truthy, JSNum.val]

/-- C3 (amended): `loadBoardDimensions` applies the stored dimensions
exactly when both stored values are numeric and nonzero under JS
truthiness — an absent key, a non-numeric (NaN) value, or a zero value
falls back to the defaults, but a negative stored value is accepted as
is. -/
theorem C3_amended_dimension_guard (s : Storage) (w h : ℚ) :
    ((s.canvasW = none ∨ s.canvasW = some JSNum.nan ∨
      s.canvasW = some (JSNum.num 0) ∨ s.canvasH = none ∨
      s.canvasH = some JSNum.nan ∨ s.canvasH = some (JSNum.num 0)) →
        loadBoardDimensions s w h = (w, h)) ∧
    (∀ lw lh : ℚ, s.canvasW = some (JSNum.num lw) →
      s.canvasH = some (JSNum.num lh) → lw ≠ 0 → lh ≠ 0 →
        loadBoardDimensions s w h = (lw, lh)) := by
  constructor
  · intro hcase
    rcases hcase with hc | hc | hc | hc | hc | hc <;>
      simp [loadBoardDimensions, jsNumber, JSNum.truthy, hc]
  · intro lw lh hwv hhv h1 h2
    simp [loadBoardDimensions, jsNumber, JSNum.truthy, JSNum.val, hwv, hhv,
      h1, h2]

/-- C3 witness: the amended guard applied to the stored pair
`("-100", "200")`. -/
theorem C3_witness :
    loadBoardDimensions ⟨some (snapshotCanvas sampleCanvas),
        some (JSNum.num (-100)), some (JSNum.num 200)⟩ 400 400 =
      (-100, 200) :=
  (C3_amended_dimension_guard ⟨some (snapshotCanvas sampleCanvas),
      some (JSNum.num (-100)), some (JSNum.num 200)⟩ 400 400).2 (-100) 200
    rfl rfl (by norm_num) (by norm_num)

/-- C4: during an interactive resize with a bound canvas, as long as the
configured maxima (`0.9 × body width`, `0.6 × body height`) are at least
the minima `300` and `150`, every pointer position yields a width in
`[300, maxWidth]` and a height in `[150, maxHeight]`. -/
theorem C4_resize_clamped (clientX clientY rootX rootY bodyW bodyH w h : ℚ)
    (hW : 300 ≤ bodyW * (9 / 10)) (hH : 150 ≤ bodyH * (6 / 10)) :
    300 ≤ (handleResize true clientX clientY rootX rootY bodyW bodyH w h).1 ∧
    (handleResize true clientX clientY rootX rootY bodyW bodyH w h).1 ≤
      bodyW * (9 / 10) ∧
    150 ≤ (handleResize true clientX clientY rootX rootY bodyW bodyH w h).2 ∧
    (handleResize true clientX clientY rootX rootY bodyW bodyH w h).2 ≤
      bodyH * (6 / 10) := by
  show 300 ≤ min (bodyW * (9 / 10)) (max 300 (clientX - rootX)) ∧
    min (bodyW * (9 / 10)) (max 300 (clientX - rootX)) ≤ bodyW * (9 / 10) ∧
    150 ≤ min (bodyH * (6 / 10)) (max 150 (clientY - rootY)) ∧
    min (bodyH * (6 / 10)) (max 150 (clientY - rootY)) ≤ bodyH * (6 / 10)
  exact ⟨le_min hW (le_max_left _ _), min_le_left _ _,
    le_min hH (le_max_left _ _), min_le_left _ _⟩

/-- C4 witness: a pointer far beyond the body on the x-axis and above the
canvas on the y-axis still yields clamped dimensions. -/
theorem C4_witness :
    300 ≤ (handleResize true 5000 (-50) 0 0 1000 1000 400 400).1 ∧
    (handleResize true 5000 (-50) 0 0 1000 1000 400 400).1 ≤
      1000 * (9 / 10) ∧
    150 ≤ (handleResize true 5000 (-50) 0 0 1000 1000 400 400).2 ∧
    (handleResize true 5000 (-50) 0 0 1000 1000 400 400).2 ≤
      1000 * (6 / 10) :=
  C4_resize_clamped 5000 (-50) 0 0 1000 1000 400 400 (by norm_num)
    (by norm_num)

/-- C5: a dimension update while resizing redraws the snapshot captured
at resize start at origin `(0,0)` onto the freshly-resized surface, so
every pixel inside both the original and the new dimensions is identical
to the pre-resize content. -/
theorem C5_resize_preserves_topleft (c : Canvas) (w h x y : ℕ)
    (hx1 : x < c.width) (hx2 : x < w) (hy1 : y < c.height) (hy2 : y < h) :
    (resizeDimensionUpdate (some (handleStartResize c)) w h).pix x y =
      c.pix x y := by
  unfold resizeDimensionUpdate handleStartResize snapshotCanvas drawImageAt
    blankCanvas
  simp only [hx1, hx2, hy1, hy2, and_true, true_and, if_true, and_self]
  cases hc : c.pix x y <;> simp [hc]

/-- C5 witness: growing the sample canvas from `2 × 2` to `3 × 3` keeps
pixel `(1,1)` unchanged. -/
theorem C5_witness :
    (resizeDimensionUpdate (some (handleStartResize sampleCanvas)) 3 3).pix
        1 1 = sampleCanvas.pix 1 1 :=
  C5_resize_preserves_topleft sampleCanvas 3 3 1 1 (by decide) (by decide)
    (by decide) (by decide)

/-- C6: uploading an image wider than `maxWidth` (with positive maxima
and a positive image height) yields dimensions bounded by
`maxWidth × maxHeight`, with a positive height and the aspect ratio of
the original image preserved exactly. -/
theorem C6_upload_aspect_and_bounds (imgW imgH maxW maxH : ℚ)
    (himgH : 0 < imgH) (hwide : maxW < imgW) (hmaxW : 0 < maxW)
    (hmaxH : 0 < maxH) :
    (uploadDims imgW imgH maxW maxH).1 ≤ maxW ∧
    (uploadDims imgW imgH maxW maxH).2 ≤ maxH ∧
    0 < (uploadDims imgW imgH maxW maxH).2 ∧
    (uploadDims imgW imgH maxW maxH).1 / (uploadDims imgW imgH maxW maxH).2 =
      imgW / imgH := by
  have himgW : 0 < imgW := lt_trans hmaxW hwide
  have hratio : 0 < imgW / imgH := div_pos himgW himgH
  have hmin : min imgW maxW = maxW := min_eq_right (le_of_lt hwide)
  simp only [uploadDims, hmin]
  have hW0 : maxW ≠ 0 := ne_of_gt hmaxW
  have hH0 : maxH ≠ 0 := ne_of_gt hmaxH
  have hiW0 : imgW ≠ 0 := ne_of_gt himgW
  have hiH0 : imgH ≠ 0 := ne_of_gt himgH
  split_ifs with hcase
  · refine ⟨?_, le_refl _, hmaxH, ?_⟩
    · exact le_of_lt ((lt_div_iff₀ hratio).1 hcase)
    · show maxH * (imgW / imgH) / maxH = imgW / imgH
      field_simp
      ring
  · have hle : maxW / (imgW / imgH) ≤ maxH := not_lt.1 hcase
    refine ⟨le_refl _, hle, div_pos hmaxW hratio, ?_⟩
    show maxW / (maxW / (imgW / imgH)) = imgW / imgH
    rw [div_div_eq_mul_div]
    field_simp
    ring

/-- C6 witness: a `2000 × 1000` image against maxima `900 × 600` becomes
`900 × 450`, within bounds and with ratio `2` preserved. -/
theorem C6_witness :
    (uploadDims 2000 1000 900 600).1 ≤ 900 ∧
    (uploadDims 2000 1000 900 600).2 ≤ 600 ∧
    0 < (uploadDims 2000 1000 900 600).2 ∧
    (uploadDims 2000 1000 900 600).1 / (uploadDims 2000 1000 900 600).2 =
      2000 / 1000 :=
  C6_upload_aspect_and_bounds 2000 1000 900 600 (by norm_num) (by norm_num)
    (by norm_num) (by norm_num)

/-- C7 counterexample: a reachable canvas need not be opaque — growing
the `2 × 2` sample canvas to `3 × 3` by a resize leaves pixel `(2,2)`
transparent — and saving it then reloading turns that pixel opaque white
(the reload clears to white before drawing the snapshot), so the
reloaded content is not pixel-identical to the saved snapshot. -/
theorem C7_counterexample_transparent_pixel :
    (resizeDimensionUpdate (some (handleStartResize sampleCanvas)) 3 3).pix
        2 2 = none ∧
    (startup
        (saveBoard (resizeDimensionUpdate (some (handleStartResize
          sampleCanvas)) 3 3) 3 3 emptyStorage)
        (blankCanvas 3 3)).2.pix 2 2 = some white ∧
    (startup
        (saveBoard (resizeDimensionUpdate (some (handleStartResize
          sampleCanvas)) 3 3) 3 3 emptyStorage)
        (blankCanvas 3 3)).2.pix 2 2 ≠
      (resizeDimensionUpdate (some (handleStartResize sampleCanvas)) 3 3).pix
        2 2 := by
  refine ⟨by decide, by decide, by decide⟩

/-- C7 (amended): after `saveBoard`, the simulated reload (the mount
sequence `loadBoardDimensions`, then clear, then `loadBoard` on a fresh
canvas of the loaded size) reproduces the saved dimensions exactly, and
every opaque pixel of the saved snapshot comes back identical, while a
transparent saved pixel (such as a resize-grown region never painted
over) comes back opaque white — content equal to the saved snapshot
composited over white, not pixel-identical in general. -/
theorem C7_save_load_roundtrip (c : Canvas) (s0 : Storage) (w h : ℕ)
    (hw : 0 < w) (hh : 0 < h) (hcw : c.width = w) (hch : c.height = h) :
    (startup (saveBoard c (w : ℚ) (h : ℚ) s0) (blankCanvas w h)).1 =
      ((w : ℚ), (h : ℚ)) ∧
    (∀ x y : ℕ, x < w → y < h → ∀ col : Color, c.pix x y = some col →
      (startup (saveBoard c (w : ℚ) (h : ℚ) s0) (blankCanvas w h)).2.pix x y =
        some col) ∧
    (∀ x y : ℕ, x < w → y < h → c.pix x y = none →
      (startup (saveBoard c (w : ℚ) (h : ℚ) s0) (blankCanvas w h)).2.pix x y =
        some white) := by
  have hwq : ((w : ℚ)) ≠ 0 := Nat.cast_ne_zero.2 (Nat.pos_iff_ne_zero.1 hw)
  have hhq : ((h : ℚ)) ≠ 0 := Nat.cast_ne_zero.2 (Nat.pos_iff_ne_zero.1 hh)
  refine ⟨?_, ?_, ?_⟩
  · simp [startup, loadBoardDimensions, saveBoard, jsNumber, JSNum.truthy,
      JSNum.val, hwq, hhq]
  · intro x y hx hy col hcol
    simp only [startup, loadBoard, saveBoard, snapshotCanvas, drawImageAt,
      clearBoard, blankCanvas, hcw, hch]
    simp [hx, hy, hcol]
  · intro x y hx hy hcol
    simp only [startup, loadBoard, saveBoard, snapshotCanvas, drawImageAt,
      clearBoard, blankCanvas, hcw, hch]
    simp [hx, hy, hcol]

/-- C7 witness: saving the resize-grown `3 × 3` canvas and reloading
reproduces the dimensions, keeps the opaque pixel `(0,0)`, and turns the
transparent pixel `(2,2)` white. -/
theorem C7_witness :
    (startup
        (saveBoard (resizeDimensionUpdate (some (handleStartResize
          sampleCanvas)) 3 3) 3 3 emptyStorage)
        (blankCanvas 3 3)).1 = (3, 3) ∧
    (startup
        (saveBoard (resizeDimensionUpdate (some (handleStartResize
          sampleCanvas)) 3 3) 3 3 emptyStorage)
        (blankCanvas 3 3)).2.pix 0 0 = some ⟨0, 0, 0⟩ ∧
    (startup
        (saveBoard (resizeDimensionUpdate (some (handleStartResize
          sampleCanvas)) 3 3) 3 3 emptyStorage)
        (blankCanvas 3 3)).2.pix 2 2 = some white := by
  have hmain := C7_save_load_roundtrip
    (resizeDimensionUpdate (some (handleStartResize sampleCanvas)) 3 3)
    emptyStorage 3 3 (by decide) (by decide) rfl rfl
  refine ⟨?_, ?_, ?_⟩
  · have h1 := hmain.1
    norm_num at h1
    exact h1
  · have h2 := hmain.2.1 0 0 (by decide) (by decide) ⟨0, 0, 0⟩ (by decide)
    norm_num at h2
    exact h2
  · have h3 := hmain.2.2 2 2 (by decide) (by decide) (by decide)
    norm_num at h3
    exact h3

/-- C8: starting up with no prior stored data keeps the default
`400 × 400` dimensions and leaves every in-bounds pixel opaque white; the
whole startup path is a total function, so no exception can be raised. -/
theorem C8_startup_no_stored_data (x y : ℕ) (hx : x < 400) (hy : y < 400) :
    (startup emptyStorage (blankCanvas 400 400)).1 = (400, 400) ∧
    (startup emptyStorage (blankCanvas 400 400)).2.width = 400 ∧
    (startup emptyStorage (blankCanvas 400 400)).2.height = 400 ∧
    (startup emptyStorage (blankCanvas 400 400)).2.pix x y = some white := by
  refine ⟨?_, rfl, rfl, ?_⟩
  · simp [startup, loadBoardDimensions, emptyStorage, jsNumber, JSNum.truthy]
  · simp [startup, loadBoard, emptyStorage, clearBoard, blankCanvas, hx, hy]

/-- C8 witness: pixel `(7, 5)` of the default startup surface is white. -/
theorem C8_witness :
    (startup emptyStorage (blankCanvas 400 400)).2.pix 7 5 = some white :=
  (C8_startup_no_stored_data 7 5 (by decide) (by decide)).2.2.2

/-- One pointer event preserves the stroke invariant: a non-null previous
point implies a stroke is in progress. -/
theorem pointerStep_preserves_inv (st : StrokeState) (e : PEvent)
    (h : st.prevXY.isSome = true → st.isDrawing = true) :
    (pointerStep st e).prevXY.isSome = true →
      (pointerStep st e).isDrawing = true := by
  cases e with
  | down => intro _; rfl
  | up => intro hc; simp [pointerStep, handlePointerUp] at hc
  | out => intro hc; simp [pointerStep, handlePointerUp] at hc
  | move hasCtx hasCanvas x y =>
      by_cases hd : st.isDrawing
      · cases hasCtx with
        | false => simp [pointerStep, handlePointerMove, hd]
        | true =>
            cases hasCanvas with
            | false => simp [pointerStep, handlePointerMove, hd]
            | true =>
                cases hp : st.prevXY <;>
                  simp [pointerStep, handlePointerMove, hd, hp]
      · have hd0 : st.isDrawing = false := Bool.not_eq_true _ ▸ by
          simpa using hd
        simpa [pointerStep, handlePointerMove, hd0] using h

/-- Folding pointer events preserves the stroke invariant. -/
theorem foldl_pointerStep_inv (evs : List PEvent) :
    ∀ st : StrokeState, (st.prevXY.isSome = true → st.isDrawing = true) →
      ((evs.foldl pointerStep st).prevXY.isSome = true →
        (evs.foldl pointerStep st).isDrawing = true) := by
  induction evs with
  | nil => intro st h; exact h
  | cons e rest ih =>
      intro st h
      exact ih (pointerStep st e) (pointerStep_preserves_inv st e h)

/-- C9: `prevXY` is null in the initial state; in every state reachable
by pointer events it is non-null only while `isDrawing` holds;
pointer-up and pointer-leave reset it to null; and pointer-down does not
set it (only a pointer-move during an active stroke can). -/
theorem C9_prevXY_only_during_stroke :
    initStrokeState.prevXY = none ∧
    (∀ evs : List PEvent, (runEvents evs).prevXY.isSome = true →
      (runEvents evs).isDrawing = true) ∧
    (∀ st : StrokeState, (pointerStep st PEvent.up).prevXY = none ∧
      (pointerStep st PEvent.out).prevXY = none) ∧
    (∀ st : StrokeState, (pointerStep st PEvent.down).prevXY = st.prevXY) := by
  refine ⟨rfl, ?_, fun st => ⟨rfl, rfl⟩, fun st => rfl⟩
  intro evs
  exact foldl_pointerStep_inv evs initStrokeState
    (by intro hc; simp [initStrokeState] at hc)

/-- C9 witness: after pointer-down and a pointer-move, `prevXY` is
non-null and the invariant forces `isDrawing` to be true. -/
theorem C9_witness :
    (runEvents [PEvent.down, PEvent.move true true 1 2]).isDrawing = true :=
  C9_prevXY_only_during_stroke.2.1 [PEvent.down, PEvent.move true true 1 2]
    (by decide)
